import Mathlib

/-!
Verification development for the browser video-creator repository.

The core under verification is the `VideoCreator` component: the render
orchestrator `generateVideo`, the `reset` handler, the submit handler, and
the small helpers they use (the ffmpeg command builder, the audio staging
filename, the frame naming scheme).  The component's observable behaviour
(status / progress / error updates, virtual-filesystem operations, object-URL
publication and revocation) is embedded as a deterministic function from the
component state to a final state together with an ordered trace of events.
JavaScript numbers are modelled as rationals, `Math.floor` as `Int.floor`
and `Math.round x` as `⌊x + 1/2⌋`.  External fallible operations (frame
writes, audio staging, encoder execution, output readback) are driven by an
explicit failure oracle so that every exception schedule of the source can
be analysed.
-/

namespace VideoCreator

/-! ### JavaScript string primitives used by the component -/

/-- `String.prototype.includes` specialised to a single-character needle,
as in `audioFile.name.includes('.')`. -/
def jsIncludes (c : Char) : List Char → Bool
  | [] => false
  | a :: t => a = c || jsIncludes c t

/-- `String.prototype.lastIndexOf` for a single-character needle: the index
of the last occurrence, or `-1` when absent. -/
def jsLastIndexOf (c : Char) : List Char → Int
  | [] => -1
  | a :: t =>
    let r := jsLastIndexOf c t
    if 0 ≤ r then r + 1
    else if a = c then 0 else -1

/-- `String.prototype.slice` with a single argument: drop the first `i`
characters; a negative `i` counts from the end. -/
def jsSlice (l : List Char) (i : Int) : List Char :=
  if 0 ≤ i then l.drop i.toNat else l.drop (l.length - (-i).toNat)

/-- `String.prototype.padStart(len, '0')` as used for frame numbering. -/
def jsPadStart (s : String) (len : Nat) : String :=
  ⟨List.replicate (len - s.data.length) '0' ++ s.data⟩

/-- `Math.round`: round half toward positive infinity, as JavaScript does. -/
def jsRound (q : ℚ) : ℤ := ⌊q + 1/2⌋

/-- Rendering of a JavaScript number into a template string (`${config.fps}`);
integral values print without a fractional part. -/
def jsNumToString (q : ℚ) : String :=
  if q.den = 1 then toString q.num else toString q

/-! ### Configuration data model (`src` {`VideoConfig`, `defaultConfig`}) -/

inductive Background where
  | gradient
  | solid
deriving DecidableEq

inductive Animation where
  | slide
  | scale
  | fade
deriving DecidableEq

structure VideoConfig where
  width : ℚ
  height : ℚ
  duration : ℚ
  fps : ℚ
  title : String
  subtitle : String
  background : Background
  gradientStart : String
  gradientEnd : String
  backgroundColor : String
  textColor : String
  accentColor : String
  fontSize : ℚ
  subtitleSize : ℚ
  animation : Animation
deriving DecidableEq

def defaultConfig : VideoConfig where
  width := 1080
  height := 1920
  duration := 6
  fps := 30
  title := "Dream Big"
  subtitle := "Create high-impact clips without leaving your browser."
  background := .gradient
  gradientStart := "#0f172a"
  gradientEnd := "#6366f1"
  backgroundColor := "#0f172a"
  textColor := "#f8fafc"
  accentColor := "#22d3ee"
  fontSize := 86
  subtitleSize := 32
  animation := .slide

/-- A user-selected audio file: only its name is observable to the core. -/
structure AudioFile where
  name : String
deriving DecidableEq

/-! ### Naming scheme and command construction -/

def padLength : Nat := 5

/-- The frame-sequence pattern handed to ffmpeg: `frame_%0${padLength}d.png`. -/
def framePattern : String := "frame_%0" ++ toString padLength ++ "d.png"

/-- `frame_${String(i).padStart(padLength, '0')}.png`. -/
def frameName (i : Nat) : String :=
  "frame_" ++ jsPadStart (toString i) padLength ++ ".png"

/-- The staged audio filename: literal prefix `audio_input` plus the
extension sliced from the last dot of the original name, or `.mp3` when the
original name has no dot. -/
def audioInputName (name : String) : String :=
  ⟨"audio_input".data ++
    (if jsIncludes '.' name.data then jsSlice name.data (jsLastIndexOf '.' name.data)
     else ".mp3".data)⟩

/-- The ffmpeg argument list, assembled by the same sequence of pushes as the
source: base input arguments, conditional audio input, fixed video options,
conditional audio options, output filename. -/
def buildCommand (fpsStr : String) (audioName : Option String) : List String :=
  let command := ["-y", "-framerate", fpsStr, "-i", framePattern]
  let command :=
    match audioName with
    | some n => command ++ ["-i", n, "-shortest"]
    | none => command
  let command :=
    command ++ ["-c:v", "libx264", "-profile:v", "main", "-pix_fmt", "yuv420p",
      "-preset", "medium"]
  let command :=
    match audioName with
    | some _ => command ++ ["-c:a", "aac", "-b:a", "192k"]
    | none => command
  command ++ ["output.mp4"]

/-! ### Component state and observable events -/

/-- The mutable state of the `VideoCreator` component: the React state hooks,
the `retryCount` ref, the flags exposed by the ffmpeg-loading hook, and
bookkeeping for object-URL handles (`nextHandle` numbers the URLs created so
far; `revoked` records every `URL.revokeObjectURL` call). -/
structure UiState where
  config : VideoConfig
  audioFile : Option AudioFile
  previewUrl : Option Nat
  status : String
  progress : Option Int
  isGenerating : Bool
  error : Option String
  retryCount : Nat
  ready : Bool
  loading : Bool
  ffmpegSome : Bool
  nextHandle : Nat
  revoked : List Nat
deriving DecidableEq

/-- Initial component state before the encoder has loaded. -/
def initState : UiState where
  config := defaultConfig
  audioFile := none
  previewUrl := none
  status := "Idle"
  progress := none
  isGenerating := false
  error := none
  retryCount := 0
  ready := false
  loading := false
  ffmpegSome := false
  nextHandle := 0
  revoked := []

/-- Component state once the ffmpeg hook has finished loading. -/
def readyState : UiState :=
  { initState with ready := true, ffmpegSome := true }

/-- Observable events of one run: state-setter calls, virtual-filesystem
operations, encoder execution, and object-URL lifecycle operations. -/
inductive Event where
  | setStatus (s : String)
  | setProgress (p : Option Int)
  | setError (e : Option String)
  | setGenerating (b : Bool)
  | deleteFile (name : String)
  | frameCallback (i : Nat)
  | writeFile (name : String)
  | execCmd (args : List String)
  | readFile (name : String)
  | revoke (h : Nat)
  | publish (h : Nat)
  | incRetry
deriving DecidableEq

/-- Where an external operation of the attempt throws. -/
inductive FailStep where
  | frame (i : Nat)
  | audioStage
  | exec
  | readOutput
deriving DecidableEq

/-- A failure oracle entry: the step that throws and the thrown message. -/
structure FailSpec where
  step : FailStep
  msg : String
deriving DecidableEq

/-- The message the oracle injects at a given step, if any. -/
def failsAt (fail : Option FailSpec) (st : FailStep) : Option String :=
  match fail with
  | some f => if f.step = st then some f.msg else none
  | none => none

/-- A run in progress: current state plus the trace of events so far. -/
structure RS where
  st : UiState
  tr : List Event
deriving DecidableEq

def emitStatus (x : String) (r : RS) : RS :=
  ⟨{ r.st with status := x }, r.tr ++ [.setStatus x]⟩

def emitProgress (p : Option Int) (r : RS) : RS :=
  ⟨{ r.st with progress := p }, r.tr ++ [.setProgress p]⟩

def emitError (e : Option String) (r : RS) : RS :=
  ⟨{ r.st with error := e }, r.tr ++ [.setError e]⟩

def emitGenerating (b : Bool) (r : RS) : RS :=
  ⟨{ r.st with isGenerating := b }, r.tr ++ [.setGenerating b]⟩

/-! ### The render attempt -/

/-- `Math.floor(config.duration * config.fps)`. -/
def tfOf (s : UiState) : ℤ := ⌊s.config.duration * s.config.fps⌋

/-- The number of loop iterations the non-negative guard `i < totalFrames`
admits. -/
def nOf (s : UiState) : Nat := (tfOf s).toNat

/-- The staged audio filename for the current selection, when audio is
supplied. -/
def audioNameOf (s : UiState) : Option String :=
  s.audioFile.map (fun a => audioInputName a.name)

/-- The body of `onFrame` after a successful frame render: write the frame
file and advance progress by `Math.round(((index + 1) / totalFrames) * 50)`. -/
def stepFrame (tf : ℤ) (i : Nat) (r : RS) : RS :=
  emitProgress (some (jsRound (((i : ℚ) + 1) / (tf : ℚ) * 50)))
    ⟨r.st, r.tr ++ [.writeFile (frameName i)]⟩

/-- Modelled from the spec: the Frame Sequencer `generateFrames` (imported
from a library file not included in the sources) invokes `onFrame` once per
index `0..totalFrames-1` in strictly increasing order, produces an empty
sequence when `totalFrames <= 0`, and aborts propagating the failure when
`onFrame` throws.  The `onFrame` body itself is taken from the source. -/
def runFrames (tf : ℤ) (fail : Option FailSpec) : Nat → Nat → RS →
    Except (String × RS) RS
  | 0, _, r => .ok r
  | k + 1, i, r =>
    let r0 : RS := ⟨r.st, r.tr ++ [.frameCallback i]⟩
    match failsAt fail (.frame i) with
    | some m => .error (m, r0)
    | none => runFrames tf fail k (i + 1) (stepFrame tf i r0)

/-- The `try` block of `generateVideo`: set the in-flight flag, clear error
and progress, best-effort cleanup, drive the sequencer, optionally stage
audio, execute the encoder, read the output back and publish the handle. -/
def attemptBody (fail : Option FailSpec) (r0 : RS) : Except (String × RS) RS :=
  let s := r0.st
  let r := emitGenerating true r0
  let r := emitError none r
  let r := emitProgress none r
  let r := emitStatus "Preparing workspace" r
  let tf : ℤ := tfOf s
  let r : RS := ⟨r.st, r.tr ++ [.deleteFile "output.mp4"]⟩
  let r : RS :=
    ⟨r.st, r.tr ++ (List.range tf.toNat).map (fun i => .deleteFile (frameName i))⟩
  let audioName := audioNameOf s
  let r : RS :=
    match audioName with
    | some n => ⟨r.st, r.tr ++ [.deleteFile n]⟩
    | none => r
  let r := emitStatus "Rendering frames" r
  match runFrames tf fail tf.toNat 0 r with
  | .error e => .error e
  | .ok r =>
    let staged : Except (String × RS) RS :=
      match audioName with
      | some n =>
        let r := emitStatus "Transcoding audio" r
        match failsAt fail .audioStage with
        | some m => .error (m, r)
        | none => .ok ⟨r.st, r.tr ++ [.writeFile n]⟩
      | none => .ok r
    match staged with
    | .error e => .error e
    | .ok r =>
      let r := emitStatus "Encoding video" r
      let r : RS :=
        ⟨r.st, r.tr ++ [.execCmd (buildCommand (jsNumToString s.config.fps) audioName)]⟩
      match failsAt fail .exec with
      | some m => .error (m, r)
      | none =>
        let r := emitProgress (some 90) r
        let r := emitStatus "Finalizing" r
        match failsAt fail .readOutput with
        | some m => .error (m, r)
        | none =>
          let r : RS := ⟨r.st, r.tr ++ [.readFile "output.mp4"]⟩
          let h := r.st.nextHandle
          let r : RS :=
            match r.st.previewUrl with
            | some old =>
              ⟨{ r.st with
                  previewUrl := some h
                  nextHandle := h + 1
                  revoked := old :: r.st.revoked },
                r.tr ++ [.revoke old, .publish h]⟩
            | none =>
              ⟨{ r.st with previewUrl := some h, nextHandle := h + 1 },
                r.tr ++ [.publish h]⟩
          let r := emitProgress (some 100) r
          .ok (emitStatus "Done" r)

def notReadyMsg : String := "FFmpeg not ready yet. Please wait a second and try again."

/-- The orchestrator `generateVideo`: precondition check on the encoder
handle, the `try` body, the `catch` handler (increment the retry counter,
record the message, mark `Failed`) and the `finally` clause clearing the
in-flight flag. -/
def generateVideo (fail : Option FailSpec) (s : UiState) : UiState × List Event :=
  if s.ffmpegSome = false then
    ({ s with error := some notReadyMsg }, [.setError (some notReadyMsg)])
  else
    match attemptBody fail ⟨s, []⟩ with
    | .ok r =>
      let r := emitGenerating false r
      (r.st, r.tr)
    | .error (m, r) =>
      let r : RS := ⟨{ r.st with retryCount := r.st.retryCount + 1 }, r.tr ++ [.incRetry]⟩
      let r := emitError (some m) r
      let r := emitStatus "Failed" r
      let r := emitGenerating false r
      (r.st, r.tr)

/-! ### UI entry points -/

/-- The submit button is disabled while the encoder is not ready, still
loading, or an attempt is in flight. -/
def submitButtonDisabled (s : UiState) : Bool :=
  !s.ready || s.loading || s.isGenerating

/-- A click on the submit button: disabled clicks do nothing; otherwise
`onSubmit` re-checks readiness and starts `generateVideo`. -/
def submitClick (fail : Option FailSpec) (s : UiState) : UiState × List Event :=
  if submitButtonDisabled s then (s, [])
  else if !s.ready || s.loading then (s, [])
  else generateVideo fail s

/-- A click on the reset button: disabled while generating; otherwise
restores the default configuration, clears the audio selection, drops the
preview handle, and resets status, progress, error and the retry counter. -/
def resetClick (s : UiState) : UiState :=
  if s.isGenerating then s
  else
    { s with
        config := defaultConfig
        audioFile := none
        previewUrl := none
        status := "Idle"
        progress := none
        error := none
        retryCount := 0 }

/-- User-level actions driving the component across a session. -/
inductive Action where
  | submit (fail : Option FailSpec)
  | resetBtn
  | configChange (c : VideoConfig)
  | chooseAudio (a : Option AudioFile)

def stepAction (s : UiState) : Action → UiState
  | .submit f => (submitClick f s).1
  | .resetBtn => resetClick s
  | .configChange c => { s with config := c }
  | .chooseAudio a => { s with audioFile := a }

def runActions (s : UiState) (l : List Action) : UiState :=
  l.foldl stepAction s

/-! ### Observations over traces and states -/

def statusList (tr : List Event) : List String :=
  tr.filterMap fun e => match e with | .setStatus x => some x | _ => none

def progressList (tr : List Event) : List Int :=
  tr.filterMap fun e => match e with | .setProgress (some p) => some p | _ => none

def callbackList (tr : List Event) : List Nat :=
  tr.filterMap fun e => match e with | .frameCallback i => some i | _ => none

def execList (tr : List Event) : List (List String) :=
  tr.filterMap fun e => match e with | .execCmd a => some a | _ => none

/-- Filesystem and encoder operations of a trace. -/
def fsEvents (tr : List Event) : List Event :=
  tr.filter fun e =>
    match e with
    | .writeFile _ | .deleteFile _ | .execCmd _ | .readFile _ => true
    | _ => false

/-- An object-URL handle is alive when it has been created and never
revoked. -/
def aliveH (h : Nat) (s : UiState) : Prop :=
  h < s.nextHandle ∧ h ∉ s.revoked

instance (h : Nat) (s : UiState) : Decidable (aliveH h s) := by
  unfold aliveH; infer_instance

/-- The list of currently alive handles. -/
def aliveList (s : UiState) : List Nat :=
  (List.range s.nextHandle).filter fun h => decide (h ∉ s.revoked)

/-- Whether the failure oracle entry is reachable in the given state: a frame
failure needs its index to be produced, an audio-staging failure needs audio
to be supplied, and the encoder and readback steps always run. -/
def triggers (f : FailSpec) (s : UiState) : Bool :=
  match f.step with
  | .frame i => i < nOf s
  | .audioStage => (audioNameOf s).isSome
  | .exec => true
  | .readOutput => true

/-- Handle-ownership invariant: every revoked handle was created, and a
created handle is unrevoked exactly when it is the currently referenced
preview handle. -/
def HandleInv (s : UiState) : Prop :=
  (∀ h ∈ s.revoked, h < s.nextHandle) ∧
  (∀ h : Nat, aliveH h s ↔ s.previewUrl = some h)

/-! ### Concrete states used by witnesses and counterexamples -/

/-- A two-frame configuration (duration 1 s at 2 fps). -/
def smallCfg : VideoConfig := { defaultConfig with duration := 1, fps := 2 }

/-- Loaded component state with the two-frame configuration. -/
def smallState : UiState := { readyState with config := smallCfg }

/-- Loaded component state with a negative duration. -/
def negState : UiState :=
  { readyState with config := { defaultConfig with duration := -1 } }

/-- Loaded component state already holding a published preview handle. -/
def heldState : UiState :=
  { readyState with previewUrl := some 0, nextHandle := 1 }

/-- Loaded component state with a render in flight. -/
def busyState : UiState := { readyState with isGenerating := true }

/-! ### Trace and state characterisations used by the theorems -/

/-- Events of the `Preparing` phase up to and including the transition to
`Rendering frames`. -/
def preTrace (s : UiState) : List Event :=
  [.setGenerating true, .setError none, .setProgress none,
    .setStatus "Preparing workspace", .deleteFile "output.mp4"] ++
  (List.range (nOf s)).map (fun i => .deleteFile (frameName i)) ++
  (match audioNameOf s with | some n => [.deleteFile n] | none => []) ++
  [.setStatus "Rendering frames"]

/-- The three events one successfully processed frame contributes. -/
def frameBlock (tf : ℤ) (i : Nat) : List Event :=
  [.frameCallback i, .writeFile (frameName i),
    .setProgress (some (jsRound (((i : ℚ) + 1) / (tf : ℚ) * 50)))]

/-- Events of `k` successfully processed frames starting at index `i`. -/
def frameTraceFrom (tf : ℤ) (i k : Nat) : List Event :=
  (List.range' i k).flatMap (frameBlock tf)

/-- Events of the optional audio-staging phase. -/
def audioStageTrace (s : UiState) : List Event :=
  match audioNameOf s with
  | some n => [.setStatus "Transcoding audio", .writeFile n]
  | none => []

/-- The encoder command line assembled from the current state. -/
def cmdOf (s : UiState) : List String :=
  buildCommand (jsNumToString s.config.fps) (audioNameOf s)

/-- The revocation event accompanying publication, when a previous handle is
held. -/
def revokeTrace (s : UiState) : List Event :=
  match s.previewUrl with | some old => [.revoke old] | none => []

/-- Record a superseded handle as revoked. -/
def optRevoke (o : Option Nat) (l : List Nat) : List Nat :=
  match o with | some old => old :: l | none => l

/-- Events from the encode phase to the end of a fully successful attempt. -/
def successTail (s : UiState) : List Event :=
  audioStageTrace s ++
  [.setStatus "Encoding video", .execCmd (cmdOf s), .setProgress (some 90),
    .setStatus "Finalizing", .readFile "output.mp4"] ++
  revokeTrace s ++
  [.publish s.nextHandle, .setProgress (some 100), .setStatus "Done",
    .setGenerating false]

/-- The full event trace of a successful attempt. -/
def successTrace (s : UiState) : List Event :=
  preTrace s ++ frameTraceFrom (tfOf s) 0 (nOf s) ++ successTail s

/-- The final state of a successful attempt. -/
def successState (s : UiState) : UiState :=
  { s with
      status := "Done"
      progress := some 100
      error := none
      isGenerating := false
      previewUrl := some s.nextHandle
      nextHandle := s.nextHandle + 1
      revoked := optRevoke s.previewUrl s.revoked }

/-- The progress value held once all frames have been processed. -/
def progAfterFrames (s : UiState) : Option Int :=
  if nOf s = 0 then none
  else some (jsRound (((nOf s : Nat) : ℚ) / ((tfOf s : ℤ) : ℚ) * 50))

/-- Events of the `catch` handler followed by the `finally` clause. -/
def catchTrace (m : String) : List Event :=
  [.incRetry, .setError (some m), .setStatus "Failed", .setGenerating false]

/-- The final state of a failed attempt: the thrown message is recorded, the
retry counter advances, the in-flight flag is cleared, and the progress is
whatever the attempt had reached. -/
def failState (s : UiState) (m : String) (p : Option Int) : UiState :=
  { s with
      status := "Failed"
      progress := p
      error := some m
      isGenerating := false
      retryCount := s.retryCount + 1 }

/-- The progress value held after processing `k` frames starting at index
`i`, given the value `base` held before. -/
def progAt (base : Option Int) (tf : ℤ) (i k : Nat) : Option Int :=
  if k = 0 then base
  else some (jsRound (((i + k : Nat) : ℚ) / (tf : ℚ) * 50))

/-! ### Characterisation of the frame loop -/

theorem progAt_succ (base : Option Int) (tf : ℤ) (i k : Nat) :
    progAt base tf i (k + 1) =
      progAt (some (jsRound (((i : ℚ) + 1) / (tf : ℚ) * 50))) tf (i + 1) k := by
  cases k with
  | zero =>
    simp only [progAt, if_neg (Nat.succ_ne_zero 0), if_pos rfl]
    congr 2
    push_cast
    ring
  | succ k =>
    simp only [progAt, if_neg (Nat.succ_ne_zero _)]
    congr 3
    push_cast
    ring

theorem failsAt_noneSpec (st : FailStep) : failsAt none st = none := rfl

theorem failsAt_someSpec (f : FailSpec) (st : FailStep) :
    failsAt (some f) st = if f.step = st then some f.msg else none := rfl

theorem frameTraceFrom_zero (tf : ℤ) (i : Nat) : frameTraceFrom tf i 0 = [] := rfl

theorem frameTraceFrom_succ (tf : ℤ) (i k : Nat) :
    frameTraceFrom tf i (k + 1) = frameBlock tf i ++ frameTraceFrom tf (i + 1) k := by
  simp [frameTraceFrom, List.range'_succ]

theorem runFrames_none (tf : ℤ) : ∀ (k i : Nat) (r : RS),
    runFrames tf none k i r =
      .ok ⟨{ r.st with progress := progAt r.st.progress tf i k },
        r.tr ++ frameTraceFrom tf i k⟩ := by
  intro k
  induction k with
  | zero =>
    intro i r
    simp [runFrames, frameTraceFrom_zero, progAt]
  | succ k ih =>
    intro i r
    rw [runFrames]
    simp only [failsAt_noneSpec]
    rw [ih (i + 1) (stepFrame tf i ⟨r.st, r.tr ++ [Event.frameCallback i]⟩)]
    rw [progAt_succ, frameTraceFrom_succ]
    simp [stepFrame, emitProgress, frameBlock]

theorem runFrames_skip (tf : ℤ) (f : FailSpec) : ∀ (k i : Nat) (r : RS),
    (∀ j, i ≤ j → j < i + k → f.step ≠ .frame j) →
    runFrames tf (some f) k i r = runFrames tf none k i r := by
  intro k
  induction k with
  | zero =>
    intro i r _
    rfl
  | succ k ih =>
    intro i r h
    have hi : f.step ≠ .frame i := h i le_rfl (by omega)
    rw [runFrames, runFrames]
    simp only [failsAt_someSpec, failsAt_noneSpec, if_neg hi]
    exact ih (i + 1) _ (fun j h1 h2 => h j (by omega) (by omega))

theorem runFrames_fail (tf : ℤ) (j : Nat) (m : String) : ∀ (k i : Nat) (r : RS),
    i ≤ j → j < i + k →
    runFrames tf (some ⟨.frame j, m⟩) k i r =
      .error (m, ⟨{ r.st with progress := (if j = i then r.st.progress
              else some (jsRound ((j : ℚ) / (tf : ℚ) * 50))) },
        r.tr ++ frameTraceFrom tf i (j - i) ++ [.frameCallback j]⟩) := by
  intro k
  induction k with
  | zero =>
    intro i r h1 h2
    omega
  | succ k ih =>
    intro i r h1 h2
    rw [runFrames]
    by_cases hij : j = i
    · subst hij
      simp only [failsAt_someSpec, if_pos rfl]
      simp [frameTraceFrom_zero]
    · have hlt : i < j := lt_of_le_of_ne h1 (fun hh => hij hh.symm)
      have hne : (FailStep.frame j) ≠ (FailStep.frame i) := by simp [hij]
      simp only [failsAt_someSpec, if_neg hne]
      rw [ih (i + 1) _ (by omega) (by omega)]
      have hsub : j - i = (j - (i + 1)) + 1 := by omega
      rw [hsub, frameTraceFrom_succ]
      by_cases hji : j = i + 1
      · subst hji
        simp [stepFrame, emitProgress, frameBlock]
      · simp [stepFrame, emitProgress, frameBlock, if_neg hji, if_neg hij]

/-! ### Characterisation of whole attempts -/

theorem generateVideo_notReady (fail : Option FailSpec) (s : UiState)
    (h : s.ffmpegSome = false) :
    generateVideo fail s =
      ({ s with error := some notReadyMsg }, [.setError (some notReadyMsg)]) := by
  simp [generateVideo, h]

theorem generateVideo_none (s : UiState) (h : s.ffmpegSome = true) :
    generateVideo none s = (successState s, successTrace s) := by
  unfold generateVideo
  rw [if_neg (by simp [h])]
  simp only [attemptBody, emitGenerating, emitError, emitProgress, emitStatus]
  rw [runFrames_none]
  rcases haud : audioNameOf s with _ | nm <;>
    rcases hprev : s.previewUrl with _ | old <;>
      simp [haud, hprev, successState, successTrace, preTrace, successTail,
        audioStageTrace, cmdOf, revokeTrace, optRevoke, nOf, failsAt_noneSpec]

theorem generateVideo_frameFail (s : UiState) (j : Nat) (m : String)
    (h : s.ffmpegSome = true) (hj : j < nOf s) :
    generateVideo (some ⟨.frame j, m⟩) s =
      (failState s m (if j = 0 then none
          else some (jsRound ((j : ℚ) / ((tfOf s : ℤ) : ℚ) * 50))),
        preTrace s ++ frameTraceFrom (tfOf s) 0 j ++ [.frameCallback j] ++
          catchTrace m) := by
  unfold generateVideo
  rw [if_neg (by simp [h])]
  simp only [attemptBody, emitGenerating, emitError, emitProgress, emitStatus]
  rw [runFrames_fail (tfOf s) j m ((tfOf s).toNat) 0 _ (Nat.zero_le j)
    (by simpa [nOf] using hj)]
  rcases haud : audioNameOf s with _ | nm <;>
    simp [haud, failState, preTrace, catchTrace, nOf]

theorem generateVideo_audioFail (s : UiState) (nm m : String)
    (h : s.ffmpegSome = true) (ha : audioNameOf s = some nm) :
    generateVideo (some ⟨.audioStage, m⟩) s =
      (failState s m (progAfterFrames s),
        preTrace s ++ frameTraceFrom (tfOf s) 0 (nOf s) ++
          [.setStatus "Transcoding audio"] ++ catchTrace m) := by
  unfold generateVideo
  rw [if_neg (by simp [h])]
  simp only [attemptBody, emitGenerating, emitError, emitProgress, emitStatus]
  rw [runFrames_skip (tfOf s) ⟨.audioStage, m⟩ ((tfOf s).toNat) 0 _
    (fun j h1 h2 => by simp)]
  rw [runFrames_none]
  simp [ha, failState, preTrace, catchTrace, progAfterFrames, nOf, progAt,
    failsAt_someSpec]

theorem generateVideo_execFail (s : UiState) (m : String)
    (h : s.ffmpegSome = true) :
    generateVideo (some ⟨.exec, m⟩) s =
      (failState s m (progAfterFrames s),
        preTrace s ++ frameTraceFrom (tfOf s) 0 (nOf s) ++ audioStageTrace s ++
          [.setStatus "Encoding video", .execCmd (cmdOf s)] ++ catchTrace m) := by
  unfold generateVideo
  rw [if_neg (by simp [h])]
  simp only [attemptBody, emitGenerating, emitError, emitProgress, emitStatus]
  rw [runFrames_skip (tfOf s) ⟨.exec, m⟩ ((tfOf s).toNat) 0 _
    (fun j h1 h2 => by simp)]
  rw [runFrames_none]
  rcases haud : audioNameOf s with _ | nm <;>
    simp [haud, failState, preTrace, catchTrace, progAfterFrames, nOf, progAt,
      audioStageTrace, cmdOf, failsAt_someSpec]

theorem generateVideo_readFail (s : UiState) (m : String)
    (h : s.ffmpegSome = true) :
    generateVideo (some ⟨.readOutput, m⟩) s =
      (failState s m (some 90),
        preTrace s ++ frameTraceFrom (tfOf s) 0 (nOf s) ++ audioStageTrace s ++
          [.setStatus "Encoding video", .execCmd (cmdOf s), .setProgress (some 90),
            .setStatus "Finalizing"] ++ catchTrace m) := by
  unfold generateVideo
  rw [if_neg (by simp [h])]
  simp only [attemptBody, emitGenerating, emitError, emitProgress, emitStatus]
  rw [runFrames_skip (tfOf s) ⟨.readOutput, m⟩ ((tfOf s).toNat) 0 _
    (fun j h1 h2 => by simp)]
  rw [runFrames_none]
  rcases haud : audioNameOf s with _ | nm <;>
    simp [haud, failState, preTrace, catchTrace, nOf,
      audioStageTrace, cmdOf, failsAt_someSpec]

theorem generateVideo_noTrigger (s : UiState) (f : FailSpec)
    (h : s.ffmpegSome = true) (hf : triggers f s = false) :
    generateVideo (some f) s = (successState s, successTrace s) := by
  cases f with | mk st msg =>
  cases st with
  | frame i =>
    have hi : ¬ i < nOf s := by simpa [triggers] using hf
    unfold generateVideo
    rw [if_neg (by simp [h])]
    simp only [attemptBody, emitGenerating, emitError, emitProgress, emitStatus]
    rw [runFrames_skip (tfOf s) ⟨.frame i, msg⟩ ((tfOf s).toNat) 0 _
      (fun j h1 h2 => by
        simp only [ne_eq, FailStep.frame.injEq]
        intro hij
        subst hij
        exact hi (by simpa [nOf] using h2))]
    rw [runFrames_none]
    rcases haud : audioNameOf s with _ | nm <;>
      rcases hprev : s.previewUrl with _ | old <;>
        simp [haud, hprev, successState, successTrace, preTrace, successTail,
          audioStageTrace, cmdOf, revokeTrace, optRevoke, nOf, failsAt_someSpec]
  | audioStage =>
    have ha : audioNameOf s = none := by
      rcases haud : audioNameOf s with _ | nm
      · rfl
      · simp [triggers, haud] at hf
    unfold generateVideo
    rw [if_neg (by simp [h])]
    simp only [attemptBody, emitGenerating, emitError, emitProgress, emitStatus]
    rw [runFrames_skip (tfOf s) ⟨.audioStage, msg⟩ ((tfOf s).toNat) 0 _
      (fun j h1 h2 => by simp)]
    rw [runFrames_none]
    rcases hprev : s.previewUrl with _ | old <;>
      simp [ha, hprev, successState, successTrace, preTrace, successTail,
        audioStageTrace, cmdOf, revokeTrace, optRevoke, nOf, failsAt_someSpec]
  | exec => simp [triggers] at hf
  | readOutput => simp [triggers] at hf

/-! ### Projections of traces -/

theorem statusList_append (a b : List Event) :
    statusList (a ++ b) = statusList a ++ statusList b := by
  simp [statusList]

theorem progressList_append (a b : List Event) :
    progressList (a ++ b) = progressList a ++ progressList b := by
  simp [progressList]

theorem callbackList_append (a b : List Event) :
    callbackList (a ++ b) = callbackList a ++ callbackList b := by
  simp [callbackList]

theorem execList_append (a b : List Event) :
    execList (a ++ b) = execList a ++ execList b := by
  simp [execList]

theorem statusList_frameTraceFrom (tf : ℤ) : ∀ (k i : Nat),
    statusList (frameTraceFrom tf i k) = [] := by
  intro k
  induction k with
  | zero => intro i; rfl
  | succ k ih =>
    intro i
    rw [frameTraceFrom_succ, statusList_append, ih]
    rfl

theorem progressList_frameTraceFrom (tf : ℤ) : ∀ (k i : Nat),
    progressList (frameTraceFrom tf i k) =
      (List.range' i k).map (fun j : Nat => jsRound (((j : ℚ) + 1) / (tf : ℚ) * 50)) := by
  intro k
  induction k with
  | zero => intro i; rfl
  | succ k ih =>
    intro i
    rw [frameTraceFrom_succ, progressList_append, ih, List.range'_succ]
    rfl

theorem callbackList_frameTraceFrom (tf : ℤ) : ∀ (k i : Nat),
    callbackList (frameTraceFrom tf i k) = List.range' i k := by
  intro k
  induction k with
  | zero => intro i; rfl
  | succ k ih =>
    intro i
    rw [frameTraceFrom_succ, callbackList_append, ih, List.range'_succ]
    rfl

theorem execList_frameTraceFrom (tf : ℤ) : ∀ (k i : Nat),
    execList (frameTraceFrom tf i k) = [] := by
  intro k
  induction k with
  | zero => intro i; rfl
  | succ k ih =>
    intro i
    rw [frameTraceFrom_succ, execList_append, ih]
    rfl

theorem statusList_cons (e : Event) (tr : List Event) :
    statusList (e :: tr) =
      (match e with | .setStatus x => [x] | _ => []) ++ statusList tr := by
  cases e <;> rfl

theorem progressList_cons (e : Event) (tr : List Event) :
    progressList (e :: tr) =
      (match e with | .setProgress (some p) => [p] | _ => []) ++ progressList tr := by
  cases e with
  | setProgress p => cases p <;> rfl
  | _ => rfl

theorem callbackList_cons (e : Event) (tr : List Event) :
    callbackList (e :: tr) =
      (match e with | .frameCallback i => [i] | _ => []) ++ callbackList tr := by
  cases e <;> rfl

theorem execList_cons (e : Event) (tr : List Event) :
    execList (e :: tr) =
      (match e with | .execCmd a => [a] | _ => []) ++ execList tr := by
  cases e <;> rfl

theorem statusList_nil : statusList [] = [] := rfl

theorem progressList_nil : progressList [] = [] := rfl

theorem callbackList_nil : callbackList [] = [] := rfl

theorem execList_nil : execList [] = [] := rfl

theorem statusList_deleteList (l : List Nat) :
    statusList (l.map fun i => Event.deleteFile (frameName i)) = [] := by
  induction l with
  | nil => rfl
  | cons a t ih => simp [statusList_cons, ih]

theorem progressList_deleteList (l : List Nat) :
    progressList (l.map fun i => Event.deleteFile (frameName i)) = [] := by
  induction l with
  | nil => rfl
  | cons a t ih => simp [progressList_cons, ih]

theorem callbackList_deleteList (l : List Nat) :
    callbackList (l.map fun i => Event.deleteFile (frameName i)) = [] := by
  induction l with
  | nil => rfl
  | cons a t ih => simp [callbackList_cons, ih]

theorem execList_deleteList (l : List Nat) :
    execList (l.map fun i => Event.deleteFile (frameName i)) = [] := by
  induction l with
  | nil => rfl
  | cons a t ih => simp [execList_cons, ih]

theorem statusList_successTrace (s : UiState) :
    statusList (successTrace s) =
      ["Preparing workspace", "Rendering frames"] ++
        (match audioNameOf s with | some _ => ["Transcoding audio"] | none => []) ++
        ["Encoding video", "Finalizing", "Done"] := by
  rcases haud : audioNameOf s with _ | nm <;>
    rcases hprev : s.previewUrl with _ | old <;>
      simp [successTrace, preTrace, successTail, audioStageTrace, revokeTrace,
        haud, hprev, statusList_append, statusList_frameTraceFrom,
        statusList_cons, statusList_nil, statusList_deleteList]

theorem progressList_successTrace (s : UiState) :
    progressList (successTrace s) =
      (List.range' 0 (nOf s)).map
          (fun j : Nat => jsRound (((j : ℚ) + 1) / ((tfOf s : ℤ) : ℚ) * 50)) ++
        [90, 100] := by
  rcases haud : audioNameOf s with _ | nm <;>
    rcases hprev : s.previewUrl with _ | old <;>
      simp [successTrace, preTrace, successTail, audioStageTrace, revokeTrace,
        haud, hprev, progressList_append, progressList_frameTraceFrom,
        progressList_cons, progressList_nil, progressList_deleteList]

theorem callbackList_successTrace (s : UiState) :
    callbackList (successTrace s) = List.range' 0 (nOf s) := by
  rcases haud : audioNameOf s with _ | nm <;>
    rcases hprev : s.previewUrl with _ | old <;>
      simp [successTrace, preTrace, successTail, audioStageTrace, revokeTrace,
        haud, hprev, callbackList_append, callbackList_frameTraceFrom,
        callbackList_cons, callbackList_nil, callbackList_deleteList]

theorem execList_successTrace (s : UiState) :
    execList (successTrace s) = [cmdOf s] := by
  rcases haud : audioNameOf s with _ | nm <;>
    rcases hprev : s.previewUrl with _ | old <;>
      simp [successTrace, preTrace, successTail, audioStageTrace, revokeTrace,
        haud, hprev, execList_append, execList_frameTraceFrom,
        execList_cons, execList_nil, execList_deleteList]

/-! ### Monotonicity of the reported progress -/

theorem jsRound_le_jsRound {p q : ℚ} (h : p ≤ q) : jsRound p ≤ jsRound q := by
  unfold jsRound
  exact Int.floor_le_floor (by linarith)

theorem jsRound_fifty : jsRound 50 = 50 := by
  unfold jsRound
  norm_num

theorem chain_le_map_range (g : Nat → ℤ) (hg : ∀ j, g j ≤ g (j + 1)) :
    ∀ (k i : Nat), List.Chain' (· ≤ ·) ((List.range' i k).map g) := by
  intro k
  induction k with
  | zero => intro i; simp
  | succ k ih =>
    intro i
    rw [List.range'_succ, List.map_cons, List.chain'_cons']
    refine ⟨?_, ih (i + 1)⟩
    intro y hy
    cases k with
    | zero => simp at hy
    | succ k =>
      rw [List.range'_succ, List.map_cons] at hy
      simp only [List.head?_cons, Option.mem_some_iff] at hy
      subst hy
      exact hg i

theorem tfOf_pos_of_nOf_ne (s : UiState) (h : nOf s ≠ 0) : 0 < tfOf s := by
  by_contra hcon
  push_neg at hcon
  exact h (by simp [nOf, Int.toNat_of_nonpos hcon])

theorem nOf_cast_eq (s : UiState) (h : 0 < tfOf s) :
    ((nOf s : Nat) : ℚ) = ((tfOf s : ℤ) : ℚ) := by
  have h1 : ((nOf s : Nat) : ℤ) = tfOf s := Int.toNat_of_nonneg h.le
  exact_mod_cast congrArg (fun z : ℤ => (z : ℚ)) h1

theorem progress_elem_le_fifty (s : UiState) :
    ∀ x ∈ (List.range' 0 (nOf s)).map
      (fun j : Nat => jsRound (((j : ℚ) + 1) / ((tfOf s : ℤ) : ℚ) * 50)), x ≤ 50 := by
  intro x hx
  rw [List.mem_map] at hx
  obtain ⟨j, hjmem, rfl⟩ := hx
  rw [List.mem_range'_1] at hjmem
  have hj : j + 1 ≤ nOf s := by omega
  have hn : nOf s ≠ 0 := by omega
  have htf : 0 < tfOf s := tfOf_pos_of_nOf_ne s hn
  have htfq : (0 : ℚ) < ((tfOf s : ℤ) : ℚ) := by exact_mod_cast htf
  have harg : ((j : ℚ) + 1) / ((tfOf s : ℤ) : ℚ) * 50 ≤ 50 := by
    have hle : ((j : ℚ) + 1) ≤ ((tfOf s : ℤ) : ℚ) := by
      rw [← nOf_cast_eq s htf]
      exact_mod_cast hj
    have hdiv : ((j : ℚ) + 1) / ((tfOf s : ℤ) : ℚ) ≤ 1 :=
      (div_le_one htfq).mpr hle
    nlinarith
  calc jsRound (((j : ℚ) + 1) / ((tfOf s : ℤ) : ℚ) * 50) ≤ jsRound 50 :=
        jsRound_le_jsRound harg
    _ = 50 := jsRound_fifty

theorem chain_progress_run (s : UiState) :
    List.Chain' (· ≤ ·)
      ((List.range' 0 (nOf s)).map
          (fun j : Nat => jsRound (((j : ℚ) + 1) / ((tfOf s : ℤ) : ℚ) * 50)) ++
        [90, 100]) := by
  rw [List.chain'_append]
  refine ⟨?_, by norm_num [List.chain'_cons], ?_⟩
  · by_cases hn : nOf s = 0
    · simp [hn]
    · have htf : 0 < tfOf s := tfOf_pos_of_nOf_ne s hn
      have htfq : (0 : ℚ) < ((tfOf s : ℤ) : ℚ) := by exact_mod_cast htf
      apply chain_le_map_range
      intro j
      apply jsRound_le_jsRound
      have h1 : ((j : ℚ) + 1) ≤ ((j + 1 : ℕ) : ℚ) + 1 := by push_cast; linarith
      have hdiv : ((j : ℚ) + 1) / ((tfOf s : ℤ) : ℚ) ≤
          (((j + 1 : ℕ) : ℚ) + 1) / ((tfOf s : ℤ) : ℚ) := by gcongr
      nlinarith [hdiv, htfq]
  · intro x hx y hy
    have hx' := progress_elem_le_fifty s x (List.mem_of_mem_getLast? hx)
    have hy' : y = 90 := by
      simp only [List.head?_cons, Option.mem_some_iff] at hy
      omega
    omega

/-! ### The claims -/

/-- **C1**: on every fully successful render attempt — the encoder is
available and no step throws — the orchestrator's status passes through the
phases Preparing (`"Preparing workspace"`), RenderingFrames (`"Rendering
frames"`), Encoding (`"Encoding video"`), Finalizing (`"Finalizing"`) and
Done (`"Done"`) in that order (with the optional `"Transcoding audio"`
phase possibly interleaved), the numeric progress reports over the attempt
are monotonically non-decreasing, the last reported progress is 100, and
the attempt ends in status `Done` with progress 100. -/
theorem claim_c1_success_phases_progress (s : UiState)
    (h : s.ffmpegSome = true) :
    ["Preparing workspace", "Rendering frames", "Encoding video", "Finalizing",
        "Done"].Sublist (statusList (generateVideo none s).2) ∧
    List.Chain' (· ≤ ·) (progressList (generateVideo none s).2) ∧
    (progressList (generateVideo none s).2).getLast? = some 100 ∧
    (generateVideo none s).1.status = "Done" ∧
    (generateVideo none s).1.progress = some 100 := by
  rw [generateVideo_none s h]
  refine ⟨?_, ?_, ?_, ?_, ?_⟩
  · rw [statusList_successTrace]
    rcases audioNameOf s with _ | nm
    · exact List.Sublist.refl _
    · exact List.Sublist.cons₂ _ (List.Sublist.cons₂ _
        (List.Sublist.cons _ (List.Sublist.refl _)))
  · rw [progressList_successTrace]
    exact chain_progress_run s
  · rw [progressList_successTrace]
    rw [List.getLast?_append]
    rfl
  · rfl
  · rfl

/-- Witness for C1 at the freshly loaded component state. -/
theorem claim_c1_witness :
    ["Preparing workspace", "Rendering frames", "Encoding video", "Finalizing",
        "Done"].Sublist (statusList (generateVideo none readyState).2) ∧
    List.Chain' (· ≤ ·) (progressList (generateVideo none readyState).2) ∧
    (progressList (generateVideo none readyState).2).getLast? = some 100 ∧
    (generateVideo none readyState).1.status = "Done" ∧
    (generateVideo none readyState).1.progress = some 100 :=
  claim_c1_success_phases_progress readyState rfl

/-- **C2** counterexample: with duration `-1` and fps `30`, the render
attempt produces zero frames while `floor(duration * fps) = -30`, so the
claimed identity "number of frames produced equals `floor(duration * fps)`"
fails on a configuration with a negative product. -/
theorem claim_c2_counterexample :
    ((callbackList (generateVideo none negState).2).length : ℤ) ≠
      ⌊negState.config.duration * negState.config.fps⌋ ∧
    (callbackList (generateVideo none negState).2).length = 0 ∧
    ⌊negState.config.duration * negState.config.fps⌋ = -30 := by
  have hfloor : ⌊negState.config.duration * negState.config.fps⌋ = (-30 : ℤ) := by
    norm_num [negState, readyState, initState, defaultConfig]
  have hn : nOf negState = 0 := by
    rw [nOf, tfOf, hfloor]
    decide
  have hlen : callbackList (generateVideo none negState).2 = [] := by
    rw [generateVideo_none negState rfl, callbackList_successTrace, hn]
    rfl
  refine ⟨?_, by rw [hlen]; rfl, hfloor⟩
  rw [hlen, hfloor]
  decide

/-- **C2** (amended): on a successful attempt the frame callback is invoked
exactly `max 0 (floor(duration * fps))` times, with indices `0 ..
totalFrames-1` in strictly increasing order; in particular whenever
`duration * fps < 1` (including zero or negative fps or duration) zero
frames are produced, the callback is never invoked and no error is raised. -/
theorem claim_c2_frames_produced (s : UiState) (h : s.ffmpegSome = true) :
    callbackList (generateVideo none s).2 = List.range (tfOf s).toNat ∧
    (s.config.duration * s.config.fps < 1 →
      callbackList (generateVideo none s).2 = [] ∧
      (generateVideo none s).1.error = none ∧
      (generateVideo none s).1.status = "Done") := by
  have hcb : callbackList (generateVideo none s).2 = List.range (tfOf s).toNat := by
    rw [generateVideo_none s h, callbackList_successTrace, List.range_eq_range']
    rfl
  refine ⟨hcb, fun hlt => ⟨?_, ?_, ?_⟩⟩
  · rw [hcb]
    have htf : tfOf s < 1 := by
      rw [tfOf]
      exact Int.floor_lt.mpr (by exact_mod_cast hlt)
    have : (tfOf s).toNat = 0 := by omega
    rw [this]
    exact List.range_zero
  · rw [generateVideo_none s h]
    rfl
  · rw [generateVideo_none s h]
    rfl

/-- Witness for C2 at the negative-duration state, where
`duration * fps = -30 < 1`. -/
theorem claim_c2_witness :
    callbackList (generateVideo none negState).2 = [] ∧
    (generateVideo none negState).1.error = none ∧
    (generateVideo none negState).1.status = "Done" :=
  (claim_c2_frames_produced negState rfl).2
    (by norm_num [negState, readyState, initState, defaultConfig])

/-- **C4**: any exception raised after the attempt starts transitions the
status to `Failed`, records the thrown message for display, increments the
attempt counter by exactly one, and clears the in-flight flag; the flag is
also cleared on success, so it is false after every completed attempt. -/
theorem claim_c4_failure_semantics (s : UiState) (h : s.ffmpegSome = true) :
    (∀ f : FailSpec, triggers f s = true →
      (generateVideo (some f) s).1.status = "Failed" ∧
      (generateVideo (some f) s).1.error = some f.msg ∧
      (generateVideo (some f) s).1.retryCount = s.retryCount + 1 ∧
      (generateVideo (some f) s).1.isGenerating = false) ∧
    (∀ fail : Option FailSpec, (generateVideo fail s).1.isGenerating = false) := by
  have hfail : ∀ f : FailSpec, triggers f s = true →
      (generateVideo (some f) s).1.status = "Failed" ∧
      (generateVideo (some f) s).1.error = some f.msg ∧
      (generateVideo (some f) s).1.retryCount = s.retryCount + 1 ∧
      (generateVideo (some f) s).1.isGenerating = false := by
    intro f hf
    cases f with | mk st msg =>
    cases st with
    | frame j =>
      have hj : j < nOf s := by simpa [triggers] using hf
      rw [generateVideo_frameFail s j msg h hj]
      exact ⟨rfl, rfl, rfl, rfl⟩
    | audioStage =>
      obtain ⟨nm, ha⟩ : ∃ nm, audioNameOf s = some nm := by
        rcases haud : audioNameOf s with _ | nm
        · simp [triggers, haud] at hf
        · exact ⟨nm, rfl⟩
      rw [generateVideo_audioFail s nm msg h ha]
      exact ⟨rfl, rfl, rfl, rfl⟩
    | exec =>
      rw [generateVideo_execFail s msg h]
      exact ⟨rfl, rfl, rfl, rfl⟩
    | readOutput =>
      rw [generateVideo_readFail s msg h]
      exact ⟨rfl, rfl, rfl, rfl⟩
  refine ⟨hfail, ?_⟩
  intro fail
  cases fail with
  | none =>
    rw [generateVideo_none s h]
    rfl
  | some f =>
    by_cases ht : triggers f s = true
    · exact (hfail f ht).2.2.2
    · rw [generateVideo_noTrigger s f h (by simpa using ht)]
      rfl

/-- Witness for C4: an encoder failure at the two-frame state. -/
theorem claim_c4_witness :
    (generateVideo (some ⟨.exec, "boom"⟩) smallState).1.status = "Failed" ∧
    (generateVideo (some ⟨.exec, "boom"⟩) smallState).1.error = some "boom" ∧
    (generateVideo (some ⟨.exec, "boom"⟩) smallState).1.retryCount =
      smallState.retryCount + 1 ∧
    (generateVideo (some ⟨.exec, "boom"⟩) smallState).1.isGenerating = false :=
  (claim_c4_failure_semantics smallState rfl).1 ⟨.exec, "boom"⟩ rfl

/-- **C5**: the encoder is invoked with exactly the documented argument
list: `-y`, `-framerate`, the configured fps, `-i`, the frame pattern; then,
iff audio is supplied, `-i`, the audio filename, `-shortest`; then the fixed
video options; then, iff audio is supplied, the fixed audio options; then
the fixed output filename. -/
theorem claim_c5_command_line :
    (∀ fpsStr : String,
      buildCommand fpsStr none =
        ["-y", "-framerate", fpsStr, "-i", "frame_%05d.png", "-c:v", "libx264",
          "-profile:v", "main", "-pix_fmt", "yuv420p", "-preset", "medium",
          "output.mp4"]) ∧
    (∀ fpsStr audioName : String,
      buildCommand fpsStr (some audioName) =
        ["-y", "-framerate", fpsStr, "-i", "frame_%05d.png", "-i", audioName,
          "-shortest", "-c:v", "libx264", "-profile:v", "main", "-pix_fmt",
          "yuv420p", "-preset", "medium", "-c:a", "aac", "-b:a", "192k",
          "output.mp4"]) ∧
    (∀ s : UiState, s.ffmpegSome = true →
      execList (generateVideo none s).2 =
        [buildCommand (jsNumToString s.config.fps) (audioNameOf s)]) := by
  refine ⟨fun fpsStr => rfl, fun fpsStr audioName => rfl, fun s h => ?_⟩
  rw [generateVideo_none s h, execList_successTrace]
  rfl

/-- Witness for C5 at the freshly loaded component state. -/
theorem claim_c5_witness :
    buildCommand "30" none =
      ["-y", "-framerate", "30", "-i", "frame_%05d.png", "-c:v", "libx264",
        "-profile:v", "main", "-pix_fmt", "yuv420p", "-preset", "medium",
        "output.mp4"] ∧
    execList (generateVideo none readyState).2 =
      [buildCommand (jsNumToString readyState.config.fps)
        (audioNameOf readyState)] :=
  ⟨claim_c5_command_line.1 "30", claim_c5_command_line.2.2 readyState rfl⟩

/-! ### Lemmas on the JavaScript string primitives -/

theorem jsLastIndexOf_of_not_includes (c : Char) : ∀ l : List Char,
    jsIncludes c l = false → jsLastIndexOf c l = -1 := by
  intro l
  induction l with
  | nil => intro _; rfl
  | cons a t ih =>
    intro hf
    rw [jsIncludes, Bool.or_eq_false_iff] at hf
    rw [jsLastIndexOf]
    rw [ih hf.2]
    simp only [decide_eq_false_iff_not] at hf
    simp [hf.1]

theorem jsLastIndexOf_spec (c : Char) : ∀ l : List Char,
    jsIncludes c l = true →
    ∃ pre post : List Char, l = pre ++ c :: post ∧ jsIncludes c post = false ∧
      jsLastIndexOf c l = (pre.length : Int) := by
  intro l
  induction l with
  | nil => intro hf; simp [jsIncludes] at hf
  | cons a t ih =>
    intro hf
    cases hinc : jsIncludes c t with
    | true =>
      obtain ⟨pre, post, ht, hpost, hidx⟩ := ih hinc
      refine ⟨a :: pre, post, by rw [ht]; rfl, hpost, ?_⟩
      rw [jsLastIndexOf, hidx]
      simp
    | false =>
      have hac : a = c := by
        rw [jsIncludes, hinc, Bool.or_false, decide_eq_true_eq] at hf
        exact hf
      refine ⟨[], t, by rw [hac]; rfl, hinc, ?_⟩
      rw [jsLastIndexOf, jsLastIndexOf_of_not_includes c t hinc]
      simp [hac]

/-- **C6**: for every supplied audio file, the staged filename is the
literal prefix `audio_input` followed by the substring of the original name
from its last dot onward when the name contains a dot (case preserved), and
is `audio_input.mp3` when the name contains no dot. -/
theorem claim_c6_audio_filename (name : String) :
    (jsIncludes '.' name.data = true →
      ∃ pre post : List Char, name.data = pre ++ '.' :: post ∧
        jsIncludes '.' post = false ∧
        audioInputName name = ⟨"audio_input".data ++ '.' :: post⟩) ∧
    (jsIncludes '.' name.data = false →
      audioInputName name = "audio_input.mp3") := by
  constructor
  · intro hinc
    obtain ⟨pre, post, hsplit, hpost, hidx⟩ := jsLastIndexOf_spec '.' name.data hinc
    refine ⟨pre, post, hsplit, hpost, ?_⟩
    rw [audioInputName, if_pos hinc, hidx]
    rw [jsSlice, if_pos (by positivity)]
    rw [hsplit]
    simp [List.drop_left]
  · intro hninc
    rw [audioInputName, if_neg (by simp [hninc])]
    rfl

/-- Witness for C6: `song.WAV` keeps its extension (case preserved) and
`track` (no dot) defaults to `.mp3`. -/
theorem claim_c6_witness :
    (∃ pre post : List Char, ("song.WAV" : String).data = pre ++ '.' :: post ∧
      jsIncludes '.' post = false ∧
      audioInputName "song.WAV" = ⟨"audio_input".data ++ '.' :: post⟩) ∧
    audioInputName "track" = "audio_input.mp3" :=
  ⟨(claim_c6_audio_filename "song.WAV").1 (by decide),
    (claim_c6_audio_filename "track").2 (by decide)⟩

/-- **C7** counterexample: reset clears a held preview handle but does not
revoke its object URL — the handle's resource is not released, contrary to
the claim's "clears the output handle and releases its resource". -/
theorem claim_c7_counterexample :
    heldState.previewUrl = some 0 ∧
    heldState.isGenerating = false ∧
    (resetClick heldState).previewUrl = none ∧
    (resetClick heldState).revoked = [] ∧
    aliveH 0 (resetClick heldState) := by
  refine ⟨rfl, rfl, rfl, rfl, ?_⟩
  constructor
  · decide
  · decide

/-- **C7** (amended): reset restores the default configuration, clears the
audio selection, clears the output handle **without** revoking its resource,
sets status `Idle`, unsets progress, clears the error and the attempt
counter, and is rejected (a no-op) while a render is in progress. -/
theorem claim_c7_reset (s : UiState) :
    (s.isGenerating = false →
      resetClick s = { s with
        config := defaultConfig
        audioFile := none
        previewUrl := none
        status := "Idle"
        progress := none
        error := none
        retryCount := 0 } ∧
      (resetClick s).revoked = s.revoked ∧
      (resetClick s).nextHandle = s.nextHandle) ∧
    (s.isGenerating = true → resetClick s = s) := by
  constructor
  · intro h
    rw [resetClick, if_neg (by simp [h])]
    exact ⟨rfl, rfl, rfl⟩
  · intro h
    rw [resetClick, if_pos (by simp [h])]

/-- Witness for C7 at a state holding a handle and at a busy state. -/
theorem claim_c7_witness :
    (resetClick heldState = { heldState with
        config := defaultConfig
        audioFile := none
        previewUrl := none
        status := "Idle"
        progress := none
        error := none
        retryCount := 0 } ∧
      (resetClick heldState).revoked = heldState.revoked ∧
      (resetClick heldState).nextHandle = heldState.nextHandle) ∧
    resetClick busyState = busyState :=
  ⟨(claim_c7_reset heldState).1 rfl, (claim_c7_reset busyState).2 rfl⟩

/-- **C8**: while the in-flight flag `isGenerating` is true, a submit is
rejected: the state is unchanged and no event — in particular no render
attempt — is produced. -/
theorem claim_c8_submit_rejected (s : UiState) (fail : Option FailSpec)
    (h : s.isGenerating = true) :
    submitClick fail s = (s, []) := by
  rw [submitClick, if_pos]
  simp [submitButtonDisabled, h]

/-- Witness for C8 at the busy state. -/
theorem claim_c8_witness : submitClick none busyState = (busyState, []) :=
  claim_c8_submit_rejected busyState none rfl

/-- **C9**: when the encoder is not yet initialised, a render request only
surfaces the user-facing error: the status is untouched (the attempt never
enters `Preparing`), the in-flight flag is untouched, and no file is
written, deleted, read or executed. -/
theorem claim_c9_not_ready (s : UiState) (fail : Option FailSpec)
    (h : s.ffmpegSome = false) :
    (generateVideo fail s).1 = { s with error := some notReadyMsg } ∧
    (generateVideo fail s).2 = [.setError (some notReadyMsg)] ∧
    (generateVideo fail s).1.status = s.status ∧
    (generateVideo fail s).1.isGenerating = s.isGenerating ∧
    fsEvents (generateVideo fail s).2 = [] ∧
    statusList (generateVideo fail s).2 = [] := by
  rw [generateVideo_notReady fail s h]
  exact ⟨rfl, rfl, rfl, rfl, rfl, rfl⟩

/-- Witness for C9 at the initial (not yet loaded) state. -/
theorem claim_c9_witness :
    (generateVideo none initState).1 = { initState with error := some notReadyMsg } ∧
    (generateVideo none initState).2 = [.setError (some notReadyMsg)] ∧
    (generateVideo none initState).1.status = initState.status ∧
    (generateVideo none initState).1.isGenerating = initState.isGenerating ∧
    fsEvents (generateVideo none initState).2 = [] ∧
    statusList (generateVideo none initState).2 = [] :=
  claim_c9_not_ready initState none rfl

/-! ### Handle events in failure traces -/

theorem fail_trace_no_publish_revoke (s : UiState) (f : FailSpec)
    (h : s.ffmpegSome = true) (hf : triggers f s = true) :
    (∀ hdl : Nat, Event.publish hdl ∉ (generateVideo (some f) s).2) ∧
    (∀ hdl : Nat, Event.revoke hdl ∉ (generateVideo (some f) s).2) := by
  cases f with | mk st msg =>
  cases st with
  | frame j =>
    have hj : j < nOf s := by simpa [triggers] using hf
    rw [generateVideo_frameFail s j msg h hj]
    constructor <;> intro hdl <;>
      rcases haud : audioNameOf s with _ | nm <;>
        simp [preTrace, catchTrace, frameTraceFrom, frameBlock, haud,
          List.mem_append, List.mem_flatMap, List.mem_map]
  | audioStage =>
    obtain ⟨nm, ha⟩ : ∃ nm, audioNameOf s = some nm := by
      rcases haud : audioNameOf s with _ | nm
      · simp [triggers, haud] at hf
      · exact ⟨nm, rfl⟩
    rw [generateVideo_audioFail s nm msg h ha]
    constructor <;> intro hdl <;>
      simp [preTrace, catchTrace, frameTraceFrom, frameBlock, ha,
        List.mem_append, List.mem_flatMap, List.mem_map]
  | exec =>
    rw [generateVideo_execFail s msg h]
    constructor <;> intro hdl <;>
      rcases haud : audioNameOf s with _ | nm <;>
        simp [preTrace, catchTrace, frameTraceFrom, frameBlock, audioStageTrace,
          haud, List.mem_append, List.mem_flatMap, List.mem_map]
  | readOutput =>
    rw [generateVideo_readFail s msg h]
    constructor <;> intro hdl <;>
      rcases haud : audioNameOf s with _ | nm <;>
        simp [preTrace, catchTrace, frameTraceFrom, frameBlock, audioStageTrace,
          haud, List.mem_append, List.mem_flatMap, List.mem_map]

/-- **C10**: a failed render attempt leaves the previously published output
handle unchanged and still alive: the preview reference, the revocation
record and the handle counter are untouched, no publish or revoke event
occurs, and every handle alive before the attempt is alive after it. -/
theorem claim_c10_failure_preserves_handle (s : UiState) (f : FailSpec)
    (h : s.ffmpegSome = true) (hf : triggers f s = true) :
    (generateVideo (some f) s).1.previewUrl = s.previewUrl ∧
    (generateVideo (some f) s).1.revoked = s.revoked ∧
    (generateVideo (some f) s).1.nextHandle = s.nextHandle ∧
    (∀ hdl : Nat, Event.publish hdl ∉ (generateVideo (some f) s).2) ∧
    (∀ hdl : Nat, Event.revoke hdl ∉ (generateVideo (some f) s).2) ∧
    (∀ hdl : Nat, aliveH hdl s → aliveH hdl (generateVideo (some f) s).1) := by
  have hmem := fail_trace_no_publish_revoke s f h hf
  have hstate : (generateVideo (some f) s).1.previewUrl = s.previewUrl ∧
      (generateVideo (some f) s).1.revoked = s.revoked ∧
      (generateVideo (some f) s).1.nextHandle = s.nextHandle := by
    cases f with | mk st msg =>
    cases st with
    | frame j =>
      have hj : j < nOf s := by simpa [triggers] using hf
      rw [generateVideo_frameFail s j msg h hj]
      exact ⟨rfl, rfl, rfl⟩
    | audioStage =>
      obtain ⟨nm, ha⟩ : ∃ nm, audioNameOf s = some nm := by
        rcases haud : audioNameOf s with _ | nm
        · simp [triggers, haud] at hf
        · exact ⟨nm, rfl⟩
      rw [generateVideo_audioFail s nm msg h ha]
      exact ⟨rfl, rfl, rfl⟩
    | exec =>
      rw [generateVideo_execFail s msg h]
      exact ⟨rfl, rfl, rfl⟩
    | readOutput =>
      rw [generateVideo_readFail s msg h]
      exact ⟨rfl, rfl, rfl⟩
  refine ⟨hstate.1, hstate.2.1, hstate.2.2, hmem.1, hmem.2, ?_⟩
  intro hdl ha
  rw [aliveH, hstate.2.1, hstate.2.2]
  exact ha

/-- Witness for C10: an encoder failure at a state holding handle 0. -/
theorem claim_c10_witness :
    (generateVideo (some ⟨.exec, "boom"⟩) heldState).1.previewUrl =
      heldState.previewUrl ∧
    (generateVideo (some ⟨.exec, "boom"⟩) heldState).1.revoked =
      heldState.revoked ∧
    (generateVideo (some ⟨.exec, "boom"⟩) heldState).1.nextHandle =
      heldState.nextHandle ∧
    (∀ hdl : Nat,
      Event.publish hdl ∉ (generateVideo (some ⟨.exec, "boom"⟩) heldState).2) ∧
    (∀ hdl : Nat,
      Event.revoke hdl ∉ (generateVideo (some ⟨.exec, "boom"⟩) heldState).2) ∧
    (∀ hdl : Nat, aliveH hdl heldState →
      aliveH hdl (generateVideo (some ⟨.exec, "boom"⟩) heldState).1) :=
  claim_c10_failure_preserves_handle heldState ⟨.exec, "boom"⟩ rfl rfl

/-! ### Handle lifecycle across attempts -/

theorem fail_fields_preserved (s : UiState) (f : FailSpec)
    (h : s.ffmpegSome = true) (hf : triggers f s = true) :
    (generateVideo (some f) s).1.previewUrl = s.previewUrl ∧
    (generateVideo (some f) s).1.revoked = s.revoked ∧
    (generateVideo (some f) s).1.nextHandle = s.nextHandle := by
  cases f with | mk st msg =>
  cases st with
  | frame j =>
    have hj : j < nOf s := by simpa [triggers] using hf
    rw [generateVideo_frameFail s j msg h hj]
    exact ⟨rfl, rfl, rfl⟩
  | audioStage =>
    obtain ⟨nm, ha⟩ : ∃ nm, audioNameOf s = some nm := by
      rcases haud : audioNameOf s with _ | nm
      · simp [triggers, haud] at hf
      · exact ⟨nm, rfl⟩
    rw [generateVideo_audioFail s nm msg h ha]
    exact ⟨rfl, rfl, rfl⟩
  | exec =>
    rw [generateVideo_execFail s msg h]
    exact ⟨rfl, rfl, rfl⟩
  | readOutput =>
    rw [generateVideo_readFail s msg h]
    exact ⟨rfl, rfl, rfl⟩

theorem publish_mem_successTrace (s : UiState) (hdl : Nat) :
    Event.publish hdl ∈ successTrace s ↔ hdl = s.nextHandle := by
  rcases haud : audioNameOf s with _ | nm <;>
    rcases hprev : s.previewUrl with _ | old <;>
      simp [successTrace, preTrace, successTail, audioStageTrace, revokeTrace,
        haud, hprev, frameTraceFrom, frameBlock, List.mem_append,
        List.mem_flatMap, List.mem_map, eq_comm]

theorem successTrace_decomp (s : UiState) :
    successTrace s =
      (preTrace s ++ frameTraceFrom (tfOf s) 0 (nOf s) ++ audioStageTrace s ++
          [Event.setStatus "Encoding video", Event.execCmd (cmdOf s),
            Event.setProgress (some 90)]) ++
        [Event.setStatus "Finalizing", Event.readFile "output.mp4"] ++
        revokeTrace s ++ [Event.publish s.nextHandle] ++
        [Event.setProgress (some 100), Event.setStatus "Done",
          Event.setGenerating false] := by
  simp [successTrace, successTail, List.append_assoc]

theorem handleInv_congr (s t : UiState) (h1 : t.previewUrl = s.previewUrl)
    (h2 : t.revoked = s.revoked) (h3 : t.nextHandle = s.nextHandle)
    (hI : HandleInv s) : HandleInv t := by
  obtain ⟨hb, hal⟩ := hI
  constructor
  · intro h hh
    rw [h2] at hh
    rw [h3]
    exact hb h hh
  · intro h
    simp only [aliveH, h1, h2, h3]
    exact hal h

theorem handleInv_success (s : UiState) (hI : HandleInv s) :
    HandleInv (successState s) := by
  obtain ⟨hbound, halive⟩ := hI
  have hselfmem : ∀ old, s.previewUrl = some old →
      old < s.nextHandle ∧ old ∉ s.revoked := by
    intro old hold
    exact (halive old).mpr hold
  constructor
  · intro h hh
    rcases hprev : s.previewUrl with _ | old
    · simp only [successState, optRevoke, hprev] at hh ⊢
      exact lt_trans (hbound h hh) (Nat.lt_succ_self _)
    · simp only [successState, optRevoke, hprev, List.mem_cons] at hh ⊢
      rcases hh with rfl | hh
      · exact lt_trans (hselfmem h hprev).1 (Nat.lt_succ_self _)
      · exact lt_trans (hbound h hh) (Nat.lt_succ_self _)
  · intro h
    constructor
    · rintro ⟨hlt, hnm⟩
      simp only [successState] at hlt hnm ⊢
      by_cases heq : h = s.nextHandle
      · rw [heq]
      · exfalso
        have hnrev : h ∉ s.revoked := by
          intro hc
          apply hnm
          rcases hprev : s.previewUrl with _ | old <;> simp [optRevoke, hprev]
          · exact hc
          · exact Or.inr hc
        have hprevh : s.previewUrl = some h := (halive h).mp ⟨by omega, hnrev⟩
        apply hnm
        simp [optRevoke, hprevh]
    · intro hp
      simp only [successState, Option.some.injEq] at hp
      subst hp
      refine ⟨Nat.lt_succ_self _, ?_⟩
      intro hc
      simp only [successState] at hc
      rcases hprev : s.previewUrl with _ | old
      · rw [hprev] at hc
        simp only [optRevoke] at hc
        exact absurd (hbound _ hc) (lt_irrefl _)
      · rw [hprev] at hc
        simp only [optRevoke, List.mem_cons] at hc
        rcases hc with hc | hc
        · rw [← hc] at hprev
          exact absurd (hselfmem _ hprev).1 (lt_irrefl _)
        · exact absurd (hbound _ hc) (lt_irrefl _)

theorem handleInv_stepAction (s : UiState) (a : Action)
    (ha : a ≠ Action.resetBtn) (hI : HandleInv s) :
    HandleInv (stepAction s a) := by
  cases a with
  | submit f =>
    show HandleInv (submitClick f s).1
    rw [submitClick]
    by_cases hd : submitButtonDisabled s = true
    · rw [if_pos hd]
      exact hI
    · rw [if_neg hd]
      by_cases hd2 : (!s.ready || s.loading) = true
      · rw [if_pos hd2]
        exact hI
      · rw [if_neg hd2]
        by_cases hff : s.ffmpegSome = true
        · cases f with
          | none =>
            rw [generateVideo_none s hff]
            exact handleInv_success s hI
          | some f' =>
            by_cases ht : triggers f' s = true
            · obtain ⟨h1, h2, h3⟩ := fail_fields_preserved s f' hff ht
              exact handleInv_congr s _ h1 h2 h3 hI
            · rw [generateVideo_noTrigger s f' hff (by simpa using ht)]
              exact handleInv_success s hI
        · rw [generateVideo_notReady f s (by simpa using hff)]
          exact handleInv_congr s _ rfl rfl rfl hI
  | resetBtn => exact absurd rfl ha
  | configChange c => exact handleInv_congr s _ rfl rfl rfl hI
  | chooseAudio au => exact handleInv_congr s _ rfl rfl rfl hI

theorem handleInv_runActions (acts : List Action) : ∀ s : UiState, HandleInv s →
    (∀ a ∈ acts, a ≠ Action.resetBtn) → HandleInv (runActions s acts) := by
  induction acts with
  | nil =>
    intro s hI _
    exact hI
  | cons a t ih =>
    intro s hI hnr
    show HandleInv (runActions (stepAction s a) t)
    exact ih _ (handleInv_stepAction s a (hnr a (List.mem_cons_self a t)) hI)
      (fun b hb => hnr b (List.mem_cons_of_mem a hb))

/-- **C3** counterexample: across a successful render, a reset (which drops
the handle without revoking it) and a second successful render, two handles
are alive at once — the earlier attempt's handle was never released. -/
theorem claim_c3_counterexample :
    aliveH 0 (runActions smallState
        [.submit none, .resetBtn, .configChange smallCfg, .submit none]) ∧
    aliveH 1 (runActions smallState
        [.submit none, .resetBtn, .configChange smallCfg, .submit none]) ∧
    aliveList (runActions smallState
        [.submit none, .resetBtn, .configChange smallCfg, .submit none]) =
      [0, 1] := by
  have h1 : stepAction smallState (Action.submit none) = successState smallState := by
    show (submitClick none smallState).1 = _
    rw [submitClick, if_neg (by decide), if_neg (by decide),
      generateVideo_none smallState rfl]
  have h2 : runActions smallState
      [.submit none, .resetBtn, .configChange smallCfg, .submit none] =
      successState { resetClick (successState smallState) with config := smallCfg } := by
    show stepAction (stepAction (stepAction (stepAction smallState
        (Action.submit none)) Action.resetBtn) (Action.configChange smallCfg))
        (Action.submit none) = _
    rw [h1]
    show (submitClick none _).1 = _
    rw [submitClick, if_neg (by decide), if_neg (by decide),
      generateVideo_none _ rfl]
    rfl
  rw [h2]
  refine ⟨⟨by decide, by decide⟩, ⟨by decide, by decide⟩, by decide⟩

/-- **C3** (amended): during a render attempt a handle is published only
after a fully successful Finalizing readback — never from a failed attempt —
and publication revokes the currently referenced handle at that same moment;
consequently, along any action sequence without a reset, at most one handle
is alive at any time.  (A reset drops the held handle without revoking it,
so the original "at most one handle is ever alive" fails across resets.) -/
theorem claim_c3_single_live_handle :
    (∀ (s : UiState) (fail : Option FailSpec) (hdl : Nat),
      Event.publish hdl ∈ (generateVideo fail s).2 →
        (generateVideo fail s).1.status = "Done" ∧ hdl = s.nextHandle ∧
        ∃ pre suf : List Event, (generateVideo fail s).2 =
          pre ++ [Event.setStatus "Finalizing", Event.readFile "output.mp4"] ++
            revokeTrace s ++ [Event.publish hdl] ++ suf) ∧
    (∀ (s : UiState) (old : Nat), s.ffmpegSome = true → s.previewUrl = some old →
      [Event.revoke old, Event.publish s.nextHandle].IsInfix
        (generateVideo none s).2) ∧
    (∀ (s : UiState) (acts : List Action), HandleInv s →
      (∀ a ∈ acts, a ≠ Action.resetBtn) →
      ∀ h1 h2 : Nat, aliveH h1 (runActions s acts) →
        aliveH h2 (runActions s acts) → h1 = h2) := by
  refine ⟨?_, ?_, ?_⟩
  · intro s fail hdl hmem
    by_cases hff : s.ffmpegSome = true
    · cases fail with
      | none =>
        rw [generateVideo_none s hff] at hmem ⊢
        have hdl_eq : hdl = s.nextHandle := (publish_mem_successTrace s hdl).mp hmem
        refine ⟨rfl, hdl_eq, ?_⟩
        rw [hdl_eq]
        exact ⟨_, _, successTrace_decomp s⟩
      | some f =>
        by_cases ht : triggers f s = true
        · exact absurd hmem ((fail_trace_no_publish_revoke s f hff ht).1 hdl)
        · rw [generateVideo_noTrigger s f hff (by simpa using ht)] at hmem ⊢
          have hdl_eq : hdl = s.nextHandle := (publish_mem_successTrace s hdl).mp hmem
          refine ⟨rfl, hdl_eq, ?_⟩
          rw [hdl_eq]
          exact ⟨_, _, successTrace_decomp s⟩
    · rw [generateVideo_notReady fail s (by simpa using hff)] at hmem
      simp at hmem
  · intro s old hff hold
    rw [generateVideo_none s hff]
    refine ⟨preTrace s ++ frameTraceFrom (tfOf s) 0 (nOf s) ++ audioStageTrace s ++
      [Event.setStatus "Encoding video", Event.execCmd (cmdOf s),
        Event.setProgress (some 90), Event.setStatus "Finalizing",
        Event.readFile "output.mp4"],
      [Event.setProgress (some 100), Event.setStatus "Done",
        Event.setGenerating false], ?_⟩
    simp [successTrace, successTail, revokeTrace, hold, List.append_assoc]
  · intro s acts hI hnr h1 h2 ha1 ha2
    have hInv := handleInv_runActions acts s hI hnr
    have e1 := (hInv.2 h1).mp ha1
    have e2 := (hInv.2 h2).mp ha2
    exact Option.some.inj (e1.symm.trans e2)

/-- Witness for C3: the publish shape at the two-frame state, the
revoke-at-publish pair at a state holding handle 0, and the single-handle
conclusion after one submit from the freshly loaded state. -/
theorem claim_c3_witness :
    (generateVideo none smallState).1.status = "Done" ∧
    [Event.revoke 0, Event.publish heldState.nextHandle].IsInfix
      (generateVideo none heldState).2 ∧
    (0 : Nat) = 0 := by
  have hrun : runActions readyState [Action.submit none] = successState readyState := by
    show (submitClick none readyState).1 = _
    rw [submitClick, if_neg (by decide), if_neg (by decide),
      generateVideo_none readyState rfl]
  refine ⟨?_, ?_, ?_⟩
  · exact (claim_c3_single_live_handle.1 smallState none 0
      (by rw [generateVideo_none smallState rfl]
          exact (publish_mem_successTrace smallState 0).mpr rfl)).1
  · exact claim_c3_single_live_handle.2.1 heldState 0 rfl rfl
  · exact claim_c3_single_live_handle.2.2 readyState [Action.submit none]
      ⟨fun h hh => absurd hh (List.not_mem_nil h),
        fun h => by simp [aliveH, readyState, initState]⟩
      (by
        rintro a ha
        simp only [List.mem_singleton] at ha
        rw [ha]
        simp)
      0 0 (by rw [hrun]; exact ⟨by decide, by decide⟩)
      (by rw [hrun]; exact ⟨by decide, by decide⟩)

end VideoCreator
